import Mathlib

/-!
Verification of the kmod_db alias parsing / resolution engine

Shallow embedding of `src/kmod_db/kmod_db.py` and
`src/kmod_db/kmod_enumerators.py`.  Strings are modelled as `List Char`
(`Str`); Python dictionaries (insertion ordered) as association lists;
Python exceptions as `Except KErr`.  `fnmatchcase` is modelled by a
two-phase glob matcher (tokenize, then match), mirroring fnmatch's
translate-to-regex implementation: `*` matches any sequence, `?` any single
character, `[...]`/`[!...]` character classes with ranges, an unterminated
`[` is a literal.
-/

deriving instance DecidableEq for Except

namespace KmodDb

/-- Strings are modelled as lists of characters. -/
abbrev Str := List Char

/-- Convert a Lean string literal to the `Str` model. -/
def str (s : String) : Str := s.data

/-! ## Python string primitives -/

/-- Characters stripped by Python `str.strip()` (ASCII whitespace). -/
def isWS (c : Char) : Bool :=
  c == ' ' || c == '\t' || c == '\n' || c == '\r' || c == '\x0b' || c == '\x0c'

/-- Left part of `str.strip()`. -/
def stripL (s : Str) : Str := s.dropWhile isWS

/-- Right part of `str.strip()`. -/
def stripR (s : Str) : Str := (s.reverse.dropWhile isWS).reverse

/-- Python `str.strip()`. -/
def strip (s : Str) : Str := stripR (stripL s)

/-- Python `str.startswith(pre)`. -/
def startsWith (pre s : Str) : Bool := pre.isPrefixOf s

/-- Python `str.endswith(suf)`. -/
def endsWith (suf s : Str) : Bool := suf.reverse.isPrefixOf s.reverse

/-- Python `str.removeprefix(pre)`. -/
def dropPref (pre s : Str) : Str :=
  if pre.isPrefixOf s then s.drop pre.length else s

/-- Python `str.removesuffix(suf)`. -/
def dropSuf (suf s : Str) : Str :=
  if suf.reverse.isPrefixOf s.reverse then (s.reverse.drop suf.length).reverse else s

/-- Python `s.split(sep, 1)` when `sep` occurs (`none` models the
`ValueError` of unpacking a 1-element split). -/
def splitFirst (c : Char) : Str → Option (Str × Str)
  | [] => none
  | d :: rest =>
    if d = c then some ([], rest)
    else (splitFirst c rest).map (fun p => (d :: p.1, p.2))

/-- Python `s.split(sep)`: every occurrence splits, empty pieces kept,
`"".split(sep) = [""]`. -/
def splitAll (c : Char) : Str → List Str
  | [] => [[]]
  | d :: rest =>
    if d = c then [] :: splitAll c rest
    else
      match splitAll c rest with
      | [] => [[d]]
      | h :: t => (d :: h) :: t

/-! ## Glob matching (`fnmatch.fnmatchcase`) -/

/-- One token of a translated glob pattern. -/
inductive GlobTok where
  | star : GlobTok
  | anyChar : GlobTok
  | lit : Char → GlobTok
  | cls : Bool → List (Char × Char) → GlobTok
deriving DecidableEq

/-- Split a character-class body at its closing `]` (content, remainder);
`none` when the class is unterminated. -/
def splitAtClose : Str → Option (Str × Str)
  | [] => none
  | c :: r =>
    if c = ']' then some ([], r)
    else (splitAtClose r).map (fun p => (c :: p.1, p.2))

/-- Parse the part after a `[`: negation flag, class content, remaining
pattern.  Mirrors fnmatch: a leading `!` negates, a `]` directly after
`[` (or after `[!`) is literal content, and an unterminated class fails. -/
def parseCls (p : Str) : Option (Bool × Str × Str) :=
  match p with
  | '!' :: ']' :: t => (splitAtClose t).map (fun q => (true, ']' :: q.1, q.2))
  | '!' :: t => (splitAtClose t).map (fun q => (true, q.1, q.2))
  | ']' :: t => (splitAtClose t).map (fun q => (false, ']' :: q.1, q.2))
  | t => (splitAtClose t).map (fun q => (false, q.1, q.2))

/-- Class content to (lo, hi) ranges; a singleton is the range `(a, a)`,
`a-b` is a range, a `-` at either end is literal. -/
def clsItems : Str → List (Char × Char)
  | [] => []
  | a :: '-' :: b :: rest => (a, b) :: clsItems rest
  | a :: rest => (a, a) :: clsItems rest

/-- Tokenize a glob pattern; the fuel argument is the pattern length, which
always suffices (every step consumes at least one character). -/
def tokizeN : Nat → Str → List GlobTok
  | 0, _ => []
  | _ + 1, [] => []
  | n + 1, c :: p =>
    if c = '*' then .star :: tokizeN n p
    else if c = '?' then .anyChar :: tokizeN n p
    else if c = '[' then
      match parseCls p with
      | none => .lit '[' :: tokizeN n p
      | some (neg, content, rest) => .cls neg (clsItems content) :: tokizeN n rest
    else .lit c :: tokizeN n p

/-- Tokenized form of a glob pattern. -/
def globTokens (p : Str) : List GlobTok := tokizeN (p.length + 1) p

/-- Match a token list against a string; `star` tries every split of the
remaining input (the semantics of the regex `.*` fnmatch translates to). -/
def tokMatch : List GlobTok → Str → Bool
  | [], s => s.isEmpty
  | .star :: ts, s => (List.range (s.length + 1)).any (fun k => tokMatch ts (s.drop k))
  | .anyChar :: ts, s =>
    match s with
    | [] => false
    | _ :: s' => tokMatch ts s'
  | .lit c :: ts, s =>
    match s with
    | [] => false
    | d :: s' => d = c && tokMatch ts s'
  | .cls neg items :: ts, s =>
    match s with
    | [] => false
    | d :: s' => (items.any (fun ab => ab.1 ≤ d && d ≤ ab.2) != neg) && tokMatch ts s'

/-- Source `fnmatchcase(name, pat)`, as `globMatch pat name`. -/
def globMatch (pat s : Str) : Bool := tokMatch (globTokens pat) s

/-! ## Data model (`KmodDB.__init__`)

Python exceptions raised by the engine.  `unknownAlias` and
`ofUnknownAlias` are both instances of `UnknownAliasError` (raised with
different messages by `resolve_module_alias` and `resolve_of_alias`);
the remaining constructors model the builtin Python exception classes. -/
inductive KErr where
  | unknownAlias : Str → KErr
  | ofUnknownAlias : Str → KErr
  | valueError : KErr
  | keyError : KErr
  | indexError : KErr
  | attributeError : KErr
  | deviceNotFound : KErr
deriving DecidableEq

/-- Both `KErr.unknownAlias` and `KErr.ofUnknownAlias` are
`UnknownAliasError`s for Python `except UnknownAliasError` clauses. -/
def isUnknownAliasErr : KErr → Bool
  | .unknownAlias _ => true
  | .ofUnknownAlias _ => true
  | _ => false

/-- A CPU matcher record (`match_info` in `_process_cpu_alias`). -/
structure CpuMatch where
  arch : Str
  info : Str
  features : Str
deriving DecidableEq

/-- A virtio matcher record (`match_info` in `_process_virtio_alias`). -/
structure VirtioMatch where
  device_id : Str
  vendor_id : Str
deriving DecidableEq

/-- Insertion-ordered dictionary from module names to record lists
(Python `defaultdict(list)`). -/
abbrev AList (α : Type) := List (Str × List α)

/-- Operation `d[k].append(v)` on a `defaultdict(list)`: extend an existing key's
list in place, otherwise insert the key at the end. -/
def dictAppend (d : AList α) (k : Str) (v : α) : AList α :=
  match d with
  | [] => [(k, [v])]
  | (k', vs) :: rest =>
    if k' = k then (k', vs ++ [v]) :: rest else (k', vs) :: dictAppend rest k v

/-- Add to a Python `set` of strings (modelled as a duplicate-free list). -/
def insertSet (xs : List Str) (x : Str) : List Str :=
  if xs.contains x then xs else xs ++ [x]

/-- The state built by `KmodDB.__init__`: the builtin-module set, the
generic alias dictionary, the cpu/dmi/of/virtio matcher dictionaries, and
one dictionary per plain bus (created by `setattr` over
`self.plain_busses`). -/
structure Store where
  builtin : List Str
  aliases : AList Str
  cpu : AList CpuMatch
  dmi : AList (List Str)
  of : AList Str
  virtio : AList VirtioMatch
  acpi : AList Str
  devname : AList Str
  i2c : AList Str
  isa : AList Str
  mhi : AList Str
  usb : AList Str
  scsi : AList Str
  spi : AList Str
  pci : AList Str
  platform : AList Str
  xen : AList Str
deriving DecidableEq

/-- The store before any alias line is processed. -/
def initStore : Store :=
  ⟨[], [], [], [], [], [], [], [], [], [], [], [], [], [], [], [], []⟩

/-- List `self.ignored_busses`. -/
def ignoredBusses : List Str :=
  [str "auxiliary", str "cxl", str "dax", str "dfl", str "dsa_tag",
   str "eisa", str "hdaudio", str "hid", str "idxd", str "ieee1394",
   str "input", str "ip_set_bitmap", str "ip_set_hash", str "ip_set_list",
   str "ishtp", str "ledtrig", str "mdio", str "mei", str "nd",
   str "pcmcia", str "sdio", str "sdw", str "serio", str "ssb",
   str "tbsvc", str "typec", str "pnp", str "vfio_pci", str "wmi"]

/-- List `self.plain_busses`. -/
def plainBusses : List Str :=
  [str "acpi", str "devname", str "i2c", str "isa", str "mhi", str "usb",
   str "scsi", str "spi", str "pci", str "platform", str "xen"]

/-- Constant `_BUILTIN_NO_KMOD`. -/
def BUILTIN_NO_KMOD : List Str := [str "pcieport"]

/-- Read `getattr(self, bus)` for a plain bus (each plain bus is an attribute
created in `__init__`). -/
def busGet (s : Store) (b : Str) : AList Str :=
  if b = str "acpi" then s.acpi
  else if b = str "devname" then s.devname
  else if b = str "i2c" then s.i2c
  else if b = str "isa" then s.isa
  else if b = str "mhi" then s.mhi
  else if b = str "usb" then s.usb
  else if b = str "scsi" then s.scsi
  else if b = str "spi" then s.spi
  else if b = str "pci" then s.pci
  else if b = str "platform" then s.platform
  else if b = str "xen" then s.xen
  else []

/-- Write `getattr(self, bus)[module].append(alias)` for a plain bus. -/
def busApp (s : Store) (b module al : Str) : Store :=
  if b = str "acpi" then { s with acpi := dictAppend s.acpi module al }
  else if b = str "devname" then { s with devname := dictAppend s.devname module al }
  else if b = str "i2c" then { s with i2c := dictAppend s.i2c module al }
  else if b = str "isa" then { s with isa := dictAppend s.isa module al }
  else if b = str "mhi" then { s with mhi := dictAppend s.mhi module al }
  else if b = str "usb" then { s with usb := dictAppend s.usb module al }
  else if b = str "scsi" then { s with scsi := dictAppend s.scsi module al }
  else if b = str "spi" then { s with spi := dictAppend s.spi module al }
  else if b = str "pci" then { s with pci := dictAppend s.pci module al }
  else if b = str "platform" then { s with platform := dictAppend s.platform module al }
  else if b = str "xen" then { s with xen := dictAppend s.xen module al }
  else s

/-! ## Alias parsing (`KmodDB.get_alias_keys` … `process_alias`) -/

/-- Loop body of `get_alias_keys`: consume `key, value` pairs, stripping
both, erroring (`ValueError`) on a duplicate key. -/
def gakGo : List Str → List (Str × Str) → Except KErr (List (Str × Str))
  | [], acc => .ok acc
  | [k], acc =>
    let key := strip k
    if acc.any (fun p => p.1 == key) then .error .valueError
    else .ok (acc ++ [(key, [])])
  | k :: v :: rest, acc =>
    let key := strip k
    let val := strip v
    if acc.any (fun p => p.1 == key) then .error .valueError
    else gakGo rest (acc ++ [(key, val)])

/-- Method `KmodDB.get_alias_keys`: split on `:`; an odd token count or a
duplicate key raises `ValueError`. -/
def get_alias_keys (al : Str) : Except KErr (List (Str × Str)) :=
  let parts := splitAll ':' al
  if parts.length % 2 ≠ 0 then .error .valueError
  else gakGo parts []

/-- Python `dict.pop(k)`: the value and the dictionary without the key;
`none` models the `KeyError`. -/
def popKey (d : List (Str × Str)) (k : Str) : Option (Str × List (Str × Str)) :=
  match d with
  | [] => none
  | (k', v) :: rest =>
    if k' = k then some (v, rest)
    else (popKey rest k).map (fun p => (p.1, (k', v) :: p.2))

/-- Method `KmodDB.process_simple_alias`. -/
def process_simple_alias (s : Store) (al module : Str) (bus : Option Str) : Store :=
  match bus with
  | some b =>
    if !b.isEmpty && plainBusses.contains b then busApp s b module al
    else { s with aliases := dictAppend s.aliases module al }
  | none => { s with aliases := dictAppend s.aliases module al }

/-- Method `KmodDB._process_cpu_alias`: pops `type` and `feature`
(a missing key is a `KeyError`); a fully-wildcard alias is appended to
the generic list as the bus-less rest of the spec; otherwise `type`
is split at its first comma into `arch, info` (no comma at all is the
`ValueError` of unpacking). -/
def _process_cpu_alias (s : Store) (al module : Str) : Except KErr Store :=
  match get_alias_keys al with
  | .error e => .error e
  | .ok cpuinfo =>
    match popKey cpuinfo (str "type") with
    | none => .error .keyError
    | some (cpu_type, ci1) =>
      match popKey ci1 (str "feature") with
      | none => .error .keyError
      | some (features, _) =>
        if cpu_type = str "*" then
          if features = str "*" then
            .ok { s with aliases := dictAppend s.aliases module al }
          else
            .ok { s with cpu := dictAppend s.cpu module ⟨str "*", str "*", features⟩ }
        else
          match splitFirst ',' cpu_type with
          | none => .error .valueError
          | some (arch, info) =>
            .ok { s with cpu := dictAppend s.cpu module ⟨arch, info, features⟩ }

/-- Method `KmodDB._process_dmi_alias`: split on `:`, drop empty parts. -/
def _process_dmi_alias (s : Store) (al module : Str) : Store :=
  { s with dmi := dictAppend s.dmi module ((splitAll ':' al).filter (fun p => !p.isEmpty)) }

/-- Method `KmodDB._process_of_alias`: an alias not starting with `N*T*C` is
skipped; a trailing `C*` becomes `*`; the `N*T*C` head is stripped. -/
def _process_of_alias (s : Store) (al module : Str) : Store :=
  if !startsWith (str "N*T*C") al then s
  else
    let al1 := if endsWith (str "C*") al then dropSuf (str "C*") al ++ ['*'] else al
    { s with of := dictAppend s.of module (dropPref (str "N*T*C") al1) }

/-- Character class of the virtio alias regex `[0-9a-fA-F\*]`. -/
def isHexStar (c : Char) : Bool :=
  c.isDigit || ('a' ≤ c && c ≤ 'f') || ('A' ≤ c && c ≤ 'F') || c == '*'

/-- One attempt of `re.search(r"d(...)v(...)", alias)` at the current
position: a literal `d`, a nonempty greedy run of hex-or-`*`, a literal
`v`, then a possibly empty greedy run of hex-or-`*`. -/
def vsTry : Str → Option (Str × Str)
  | 'd' :: rest =>
    let run := rest.takeWhile isHexStar
    if run.isEmpty then none
    else
      match rest.drop run.length with
      | 'v' :: after => some (run, after.takeWhile isHexStar)
      | _ => none
  | _ => none

/-- Search `re.search` for the virtio pattern: leftmost match wins. -/
def virtioSearch : Str → Option (Str × Str)
  | [] => none
  | c :: rest =>
    match vsTry (c :: rest) with
    | some r => some r
    | none => virtioSearch rest

/-- Method `KmodDB._process_virtio_alias`: a payload without the
`d<hex>v<hex>` shape leaves `re.search` returning `None`, and
`match.group(...)` raises `AttributeError`. -/
def _process_virtio_alias (s : Store) (al module : Str) : Except KErr Store :=
  match virtioSearch al with
  | none => .error .attributeError
  | some (d, v) => .ok { s with virtio := dictAppend s.virtio module ⟨d, v⟩ }

/-- Expression `bus.replace("*", "")`. -/
def stripStars (b : Str) : Str := b.filter (fun c => c != '*')

/-- The `match bus:` dispatch of `KmodDB.process_alias`, in source order.
The `acpi`/`acpi*` arm calls the method `_process_acpi_alias`, which does
not exist anywhere in the source (`AttributeError`); it is unreachable
because `acpi` is a plain bus and the plain-bus arm precedes it. -/
def dispatchBus (s : Store) (bus al module : Str) : Except KErr Store :=
  if ignoredBusses.contains bus || ignoredBusses.contains (stripStars bus) then .ok s
  else if plainBusses.contains bus || plainBusses.contains (stripStars bus) then
    .ok (process_simple_alias s al module (some bus))
  else if bus = str "acpi" || bus = str "acpi*" then .error .attributeError
  else if bus = str "cpu" then _process_cpu_alias s al module
  else if bus = str "dmi" || bus = str "dmi*" then .ok (_process_dmi_alias s al module)
  else if bus = str "of" then .ok (_process_of_alias s al module)
  else if bus = str "virtio" then _process_virtio_alias s al module
  else .ok s

/-- Method `KmodDB.process_alias`: strip the `alias ` head, split spec from
module at the first space (`ValueError` when absent), then split the spec
at the first `:` (a spec without `:` is a plain generic alias) and
dispatch on the bus. -/
def process_alias (s : Store) (line : Str) : Except KErr Store :=
  let a0 := strip (dropPref (str "alias ") line)
  match splitFirst ' ' a0 with
  | none => .error .valueError
  | some (spec, module) =>
    match splitFirst ':' spec with
    | none => .ok { s with aliases := dictAppend s.aliases module (strip spec) }
    | some (bus, al) => dispatchBus s bus al module

/-- Loop body of `KmodDB.get_module_aliases`: lines not starting with
`alias ` are skipped; a raising line aborts the whole pass. -/
def buildGo : Store → List Str → Except KErr Store
  | s, [] => .ok s
  | s, l :: rest =>
    if startsWith (str "alias ") l then
      match process_alias s l with
      | .error e => .error e
      | .ok s' => buildGo s' rest
    else buildGo s rest

/-- Method `KmodDB.get_module_aliases` over the given file lines, starting from
the freshly initialized store. -/
def buildStore (lines : List Str) : Except KErr Store :=
  buildGo initStore lines

/-! ## Resolution (`resolve_module_alias`, `resolve_of_alias`,
`resolve_pci_alias`) -/

/-- The `for module, matchers in d.items(): for matcher in matchers:`
scan: the first module one of whose patterns glob-matches the query. -/
def scanAList : AList Str → Str → Option Str
  | [], _ => none
  | (m, ps) :: rest, a => if ps.any (fun p => globMatch p a) then some m else scanAList rest a

/-- One Open-Firmware matcher test from `resolve_of_alias`: a direct glob
match, or — when the query has no comma and the matcher does — a match
against the matcher's part after its last comma (`matcher.split(",")[-1]`). -/
def ofMatcherHit (a matcher : Str) : Bool :=
  globMatch matcher a ||
    (!(a.contains ',') && matcher.contains ',' &&
      globMatch ((splitAll ',' matcher).getLastD []) a)

/-- The nested scan of `resolve_of_alias`. -/
def ofScan : AList Str → Str → Option Str
  | [], _ => none
  | (m, ps) :: rest, a => if ps.any (fun p => ofMatcherHit a p) then some m else ofScan rest a

/-- Method `KmodDB.resolve_of_alias`: strips an optional `of:` head and scans the
Of map; raises `UnknownAliasError` when nothing matches. -/
def resolve_of_alias (s : Store) (al : Str) : Except KErr Str :=
  let a := strip (dropPref (str "of:") al)
  match ofScan s.of a with
  | some m => .ok m
  | none => .error (.ofUnknownAlias a)

/-- Method `KmodDB.resolve_pci_alias`: strips an optional `pci:` head and scans
the pci map; falls off the end (returns `None`) when nothing matches. -/
def resolve_pci_alias (s : Store) (modalias : Str) : Option Str :=
  scanAList s.pci (strip (dropPref (str "pci:") modalias))

/-- The `self.plain_busses` loop head of `resolve_module_alias`: the first
plain bus whose `bus + ":"` starts the alias. -/
def findBusPref (busses : List Str) (al : Str) : Option Str :=
  busses.find? (fun b => (b ++ [':']).isPrefixOf al)

theorem splitAtClose_len {t : Str} : ∀ {c r}, splitAtClose t = some (c, r) → r.length < t.length := by
  induction t with
  | nil => intro c r h; simp [splitAtClose] at h
  | cons d t ih =>
    intro c r h
    rw [splitAtClose] at h
    split at h
    · simp only [Option.some.injEq, Prod.mk.injEq] at h
      simp [← h.2]
    · cases hs : splitAtClose t with
      | none => rw [hs] at h; simp at h
      | some p =>
        obtain ⟨c', r'⟩ := p
        rw [hs] at h
        simp at h
        have hlt := ih (c := c') (r := r') (by rw [hs])
        rw [← h.2]
        simp only [List.length_cons]
        exact Nat.lt_succ_of_lt hlt

theorem findBusPref_len {bs : List Str} {al b : Str}
    (h : findBusPref bs al = some b) : b.length + 1 ≤ al.length := by
  have hp := List.find?_some h
  have : (b ++ [':']) <+: al := by
    exact List.isPrefixOf_iff_prefix.mp hp
  have := this.length_le
  simp at this
  omega

theorem stripL_length_le (s : Str) : (stripL s).length ≤ s.length :=
  (List.dropWhile_sublist (l := s) (p := isWS)).length_le

theorem stripR_length_le (s : Str) : (stripR s).length ≤ s.length := by
  have := (List.dropWhile_sublist (l := s.reverse) (p := isWS)).length_le
  simpa [stripR] using this

theorem strip_length_le (s : Str) : (strip s).length ≤ s.length :=
  le_trans (stripR_length_le _) (stripL_length_le _)

/-- Result of the non-recursive part of `resolve_module_alias`: either a
returned/raised outcome, or the decision to retry with the `platform`
bus hint (carrying the possibly prefix-stripped alias). -/
inductive StageRes where
  | done : Except KErr Str → StageRes
  | fallback : Str → StageRes

/-- The `for bus_name in self.plain_busses:` head of
`resolve_module_alias`: the effective bus and the (stripped) alias after
the optional plain-bus `bus:` head is removed. -/
def resolvePre (al0 : Str) (bus0 : Option Str) : Option Str × Str :=
  match findBusPref plainBusses al0 with
  | some b => (some b, strip (al0.drop (b.length + 1)))
  | none => (bus0, al0)

/-- All of `KmodDB.resolve_module_alias` except the recursive platform
retry, in source order: strip a plain-bus `bus:` head (overriding the
supplied bus hint); when a truthy bus is a plain bus, scan that bus's
map; scan the generic alias map; call `resolve_of_alias` — whose
`UnknownAliasError` on failure propagates out uncaught (making the
platform fallback and the final raise unreachable unless the Of scan
yields a falsy module name `""`); on a falsy module, decide the platform
retry when the current bus is not already `platform`, else raise
`UnknownAliasError`. -/
def resolveStages (s : Store) (al0 : Str) (bus0 : Option Str) : StageRes :=
  let bus : Option Str := (resolvePre al0 bus0).1
  let al : Str := (resolvePre al0 bus0).2
  let busScan : Option Str :=
    match bus with
    | some b => if !b.isEmpty && plainBusses.contains b then scanAList (busGet s b) al else none
    | none => none
  match busScan with
  | some m => .done (.ok m)
  | none =>
    match scanAList s.aliases al with
    | some m => .done (.ok m)
    | none =>
      match resolve_of_alias s al with
      | .error e => .done (.error e)
      | .ok m =>
        if !m.isEmpty then .done (.ok m)
        else if bus ≠ some (str "platform") then .fallback al
        else .done (.error (.unknownAlias al))

/-- A `fallback` decision carries the post-strip alias, and only arises
when the effective bus is not `platform`. -/
theorem resolveStages_fallback {s : Store} {al0 al : Str} {bus0 : Option Str}
    (h : resolveStages s al0 bus0 = .fallback al) :
    al = (resolvePre al0 bus0).2 ∧ (resolvePre al0 bus0).1 ≠ some (str "platform") := by
  unfold resolveStages at h
  rcases hpre : resolvePre al0 bus0 with ⟨B, A⟩
  simp only [hpre] at h ⊢
  repeat' split at h
  all_goals cases h
  all_goals exact ⟨rfl, by assumption⟩

/-- The strip step either shortens the alias or changes nothing. -/
theorem resolvePre_cases (al0 : Str) (bus0 : Option Str) :
    (resolvePre al0 bus0).2.length < al0.length ∨ resolvePre al0 bus0 = (bus0, al0) := by
  unfold resolvePre
  cases hpr : findBusPref plainBusses al0 with
  | some b =>
    left
    have h1 : b.length + 1 ≤ al0.length := findBusPref_len hpr
    have h2 := strip_length_le (al0.drop (b.length + 1))
    have h3 : (al0.drop (b.length + 1)).length = al0.length - (b.length + 1) := by simp
    simp only
    omega
  | none => right; rfl

/-- Method `KmodDB.resolve_module_alias`: the staged body, plus the recursive
retry with bus hint `platform` (whose truthy result is returned; a falsy
result falls through to the final raise; a raise propagates). -/
def resolve_module_alias (s : Store) (al0 : Str) (bus0 : Option Str) : Except KErr Str :=
  match hst : resolveStages s al0 bus0 with
  | .done r => r
  | .fallback al =>
    match resolve_module_alias s al (some (str "platform")) with
    | .ok m2 => if !m2.isEmpty then .ok m2 else .error (.unknownAlias al)
    | .error e => .error e
termination_by al0.length * 2 + (if bus0 = some (str "platform") then 0 else 1)
decreasing_by
  obtain ⟨hA, hB⟩ := resolveStages_fallback hst
  rcases resolvePre_cases al0 bus0 with h | h
  · rw [hA]
    split <;> omega
  · rw [h] at hA hB
    rw [hA]
    simp [hB]

/-! ## Device matchers (`KmodEnumerators`)

The sysfs enumeration itself (reading `/sys/.../modalias` files) is an
external collaborator; the matchers take the already-read modalias
strings / DMI string / block-device hierarchy as inputs. -/

/-- The cross-product scan of `detect_acpi_kmods` / `detect_pci_kmods`:
`for module, matchers: for matcher: for modalias:` adding the module to
the result set on any match. -/
def detectOver (records : AList Str) (modaliases : List Str) : List Str :=
  records.foldl
    (fun acc e =>
      e.2.foldl
        (fun acc mat =>
          modaliases.foldl
            (fun acc ma => if globMatch mat ma then insertSet acc e.1 else acc)
            acc)
        acc)
    []

/-- Method `KmodEnumerators.detect_acpi_kmods` on the given (prefix-stripped)
modalias strings. -/
def detect_acpi_kmods (s : Store) (modaliases : List Str) : List Str :=
  detectOver s.acpi modaliases

/-- Method `KmodEnumerators.detect_pci_kmods` on the given (prefix-stripped)
modalias strings. -/
def detect_pci_kmods (s : Store) (modaliases : List Str) : List Str :=
  detectOver s.pci modaliases

/-- The `for n, part in enumerate(matcher):` loop of `detect_dmi_kmods`:
`ok false` models `break` (record fails), `ok true` the `else:` of the
`for` (record matches); a non-`"*"` pattern at an index beyond the target
fields evaluates `dmi_parts[n]` and raises `IndexError`. -/
def dmiMatchOne (parts : List Str) : List Str → Nat → Except KErr Bool
  | [], _ => .ok true
  | part :: rest, n =>
    if part = str "*" ∧ n ≥ parts.length then .ok false
    else if n ≥ parts.length then .error .indexError
    else if !globMatch part (parts.getD n []) then .ok false
    else dmiMatchOne parts rest (n + 1)

/-- The `for matcher in matchers:` loop of `detect_dmi_kmods` for one
module: the first matching record adds the module and breaks. -/
def dmiScanMatchers (parts : List Str) : List (List Str) → Except KErr Bool
  | [] => .ok false
  | m :: rest =>
    match dmiMatchOne parts m 0 with
    | .error e => .error e
    | .ok true => .ok true
    | .ok false => dmiScanMatchers parts rest

/-- The outer module loop of `detect_dmi_kmods`. -/
def dmiGo (parts : List Str) : AList (List Str) → List Str → Except KErr (List Str)
  | [], acc => .ok acc
  | (m, matchers) :: rest, acc =>
    match dmiScanMatchers parts matchers with
    | .error e => .error e
    | .ok true => dmiGo parts rest (insertSet acc m)
    | .ok false => dmiGo parts rest acc

/-- Method `KmodEnumerators.detect_dmi_kmods` on a supplied DMI string (the
no-argument branch reads `/sys/class/dmi/id/modalias`, an external
input): strip a `dmi:` head, split on `:` dropping empty fields, and
scan every module's DMI records. -/
def detect_dmi_kmods (s : Store) (dmi_str : Str) : Except KErr (List Str) :=
  let parts := (splitAll ':' (strip (dropPref (str "dmi:") dmi_str))).filter (fun p => !p.isEmpty)
  dmiGo parts s.dmi []

/-- One ancestor level of the block-device walk: the `driver` symlink's
target name (when the symlink exists), the `module` symlink's target name
under the resolved driver (when it exists), and the raw text of the
`modalias` file (when it exists). -/
structure DevLevel where
  driver : Option Str
  driverModule : Option Str
  modalias : Option Str
deriving DecidableEq

/-- One iteration of the `while True:` loop of `get_blkdev_kmods`.
The driver-symlink source adds the driver's `module` link target unless
the driver name is builtin or in `_BUILTIN_NO_KMOD`.  The modalias source
resolves the file text; on `UnknownAliasError` with a builtin/no-kmod
driver nothing happens; otherwise the driver name itself is resolved as a
secondary probe (with no driver symlink at all, that probe calls
`resolve_module_alias(None)`, an uncaught `AttributeError`). -/
def blkdevLevel (s : Store) (acc : List Str) (lv : DevLevel) : Except KErr (List Str) :=
  let acc1 :=
    match lv.driver with
    | some d =>
      if s.builtin.contains d || BUILTIN_NO_KMOD.contains d then acc
      else
        match lv.driverModule with
        | some dm => insertSet acc dm
        | none => acc
    | none => acc
  match lv.modalias with
  | none => .ok acc1
  | some raw =>
    match resolve_module_alias s (strip raw) none with
    | .ok m => .ok (insertSet acc1 m)
    | .error e =>
      if isUnknownAliasErr e then
        match lv.driver with
        | some d =>
          if s.builtin.contains d then .ok acc1
          else if BUILTIN_NO_KMOD.contains d then .ok acc1
          else
            match resolve_module_alias s d none with
            | .ok m2 => .ok (insertSet acc1 m2)
            | .error e2 => if isUnknownAliasErr e2 then .ok acc1 else .error e2
        | none => .error .attributeError
      else .error e

/-- The ancestor-walk loop of `get_blkdev_kmods` (the level list runs from
the resolved device path up to the filesystem root, where the
`parent == dev_path` test stops the walk). -/
def blkdevGo (s : Store) : List DevLevel → List Str → Except KErr (List Str)
  | [], acc => .ok acc
  | lv :: rest, acc =>
    match blkdevLevel s acc lv with
    | .error e => .error e
    | .ok acc' => blkdevGo s rest acc'

/-- Method `KmodEnumerators.get_blkdev_kmods`: a missing `/sys/class/block/<dev>`
raises (`DeviceNotFound`, a `FileNotFoundError` in the source); otherwise
the ancestor chain is walked with an initially empty module set. -/
def get_blkdev_kmods (s : Store) (dev : Option (List DevLevel)) : Except KErr (List Str) :=
  match dev with
  | none => .error .deviceNotFound
  | some levels => blkdevGo s levels []

/-! ## State-threaded query embeddings

The Python queries run against the mutable `self`; to state that they
leave the store unchanged, the same source methods are embedded once more
in state-passing style: every loop iteration and every sub-call passes
the store along and the final store is returned beside the result. -/

/-- State-threaded `scanAList`. -/
def scanAListST (st : Store) : AList Str → Str → Option Str × Store
  | [], _ => (none, st)
  | (m, ps) :: rest, a =>
    if ps.any (fun p => globMatch p a) then (some m, st) else scanAListST st rest a

/-- State-threaded `ofScan`. -/
def ofScanST (st : Store) : AList Str → Str → Option Str × Store
  | [], _ => (none, st)
  | (m, ps) :: rest, a =>
    if ps.any (fun p => ofMatcherHit a p) then (some m, st) else ofScanST st rest a

/-- State-threaded `resolve_of_alias`. -/
def resolve_of_aliasST (st : Store) (al : Str) : Except KErr Str × Store :=
  let a := strip (dropPref (str "of:") al)
  match ofScanST st st.of a with
  | (some m, st1) => (.ok m, st1)
  | (none, st1) => (.error (.ofUnknownAlias a), st1)

/-- State-threaded `resolve_pci_alias`. -/
def resolve_pci_aliasST (st : Store) (modalias : Str) : Option Str × Store :=
  scanAListST st st.pci (strip (dropPref (str "pci:") modalias))

theorem scanAListST_eq (st : Store) :
    ∀ (l : AList Str) (a : Str), scanAListST st l a = (scanAList l a, st) := by
  intro l
  induction l with
  | nil => intro a; rfl
  | cons e rest ih =>
    intro a
    obtain ⟨m, ps⟩ := e
    rw [scanAListST, scanAList]
    split
    · rfl
    · exact ih a

theorem ofScanST_eq (st : Store) :
    ∀ (l : AList Str) (a : Str), ofScanST st l a = (ofScan l a, st) := by
  intro l
  induction l with
  | nil => intro a; rfl
  | cons e rest ih =>
    intro a
    obtain ⟨m, ps⟩ := e
    rw [ofScanST, ofScan]
    split
    · rfl
    · exact ih a

theorem resolve_of_aliasST_eq (st : Store) (al : Str) :
    resolve_of_aliasST st al = (resolve_of_alias st al, st) := by
  unfold resolve_of_aliasST resolve_of_alias
  simp only [ofScanST_eq]
  cases ofScan st.of (strip (dropPref (str "of:") al)) <;> rfl

theorem resolve_pci_aliasST_eq (st : Store) (modalias : Str) :
    resolve_pci_aliasST st modalias = (resolve_pci_alias st modalias, st) := by
  unfold resolve_pci_aliasST resolve_pci_alias
  rw [scanAListST_eq]

/-- State-threaded `resolveStages`. -/
def resolveStagesST (s : Store) (al0 : Str) (bus0 : Option Str) : StageRes × Store :=
  let bus : Option Str := (resolvePre al0 bus0).1
  let al : Str := (resolvePre al0 bus0).2
  let bsc : Option Str × Store :=
    match bus with
    | some b =>
      if !b.isEmpty && plainBusses.contains b then scanAListST s (busGet s b) al else (none, s)
    | none => (none, s)
  match bsc with
  | (some m, st1) => (.done (.ok m), st1)
  | (none, st1) =>
    match scanAListST st1 st1.aliases al with
    | (some m, st2) => (.done (.ok m), st2)
    | (none, st2) =>
      match resolve_of_aliasST st2 al with
      | (.error e, st3) => (.done (.error e), st3)
      | (.ok m, st3) =>
        if !m.isEmpty then (.done (.ok m), st3)
        else if bus ≠ some (str "platform") then (.fallback al, st3)
        else (.done (.error (.unknownAlias al)), st3)

theorem resolveStagesST_eq (s : Store) (al0 : Str) (bus0 : Option Str) :
    resolveStagesST s al0 bus0 = (resolveStages s al0 bus0, s) := by
  unfold resolveStagesST resolveStages
  rcases hpre : resolvePre al0 bus0 with ⟨B, A⟩
  simp only [hpre]
  cases B with
  | none =>
    simp only [scanAListST_eq]
    cases scanAList s.aliases A
    · simp only [resolve_of_aliasST_eq]
      cases resolve_of_alias s A
      · rfl
      · simp only
        split
        · rfl
        · split <;> rfl
    · rfl
  | some b =>
    by_cases hc : (!b.isEmpty && plainBusses.contains b) = true
    · simp only [hc, if_pos, scanAListST_eq]
      cases scanAList (busGet s b) A
      · simp only [scanAListST_eq]
        cases scanAList s.aliases A
        · simp only [resolve_of_aliasST_eq]
          cases resolve_of_alias s A
          · rfl
          · simp only
            split
            · rfl
            · split <;> rfl
        · rfl
      · rfl
    · simp only [hc, if_neg, Bool.false_eq_true, not_false_eq_true, scanAListST_eq]
      cases scanAList s.aliases A
      · simp only [resolve_of_aliasST_eq]
        cases resolve_of_alias s A
        · rfl
        · simp only
          split
          · rfl
          · split <;> rfl
      · rfl

/-- State-threaded `resolve_module_alias`. -/
def resolve_module_aliasST (s : Store) (al0 : Str) (bus0 : Option Str) : Except KErr Str × Store :=
  match hst : resolveStagesST s al0 bus0 with
  | (.done r, st1) => (r, st1)
  | (.fallback al, st1) =>
    match resolve_module_aliasST st1 al (some (str "platform")) with
    | (.ok m2, st2) => (if !m2.isEmpty then .ok m2 else .error (.unknownAlias al), st2)
    | (.error e, st2) => (.error e, st2)
termination_by al0.length * 2 + (if bus0 = some (str "platform") then 0 else 1)
decreasing_by
  have h2 := resolveStagesST_eq s al0 bus0
  rw [hst] at h2
  have h3 : resolveStages s al0 bus0 = .fallback al := by
    have := congrArg Prod.fst h2
    simpa using this.symm
  obtain ⟨hA, hB⟩ := resolveStages_fallback h3
  rcases resolvePre_cases al0 bus0 with h | h
  · rw [hA]
    split <;> omega
  · rw [h] at hA hB
    rw [hA]
    simp [hB]

/-- The state-threaded resolver returns the store it was given. -/
theorem resolve_module_aliasST_store (s : Store) (al0 : Str) (bus0 : Option Str) :
    (resolve_module_aliasST s al0 bus0).2 = s := by
  rw [resolve_module_aliasST.eq_def]
  split
  next r st1 hmatch =>
    have h2 := resolveStagesST_eq s al0 bus0
    rw [hmatch] at h2
    simpa using (congrArg Prod.snd h2)
  next al st1 hmatch =>
    have h2 := resolveStagesST_eq s al0 bus0
    rw [hmatch] at h2
    have hst1 : st1 = s := by simpa using (congrArg Prod.snd h2)
    have h3 : resolveStages s al0 bus0 = .fallback al := by
      have := congrArg Prod.fst h2
      simpa using this.symm
    have hrec := resolve_module_aliasST_store st1 al (some (str "platform"))
    split
    next m2 st2 hm =>
      rw [hm] at hrec
      simp at hrec
      simp [hrec, hst1]
    next e st2 hm =>
      rw [hm] at hrec
      simp at hrec
      simp [hrec, hst1]
termination_by al0.length * 2 + (if bus0 = some (str "platform") then 0 else 1)
decreasing_by
  obtain ⟨hA, hB⟩ := resolveStages_fallback h3
  rcases resolvePre_cases al0 bus0 with h | h
  · rw [hA]
    split <;> omega
  · rw [h] at hA hB
    rw [hA]
    simp [hB]

/-- State-threaded module loop of `detect_acpi_kmods`/`detect_pci_kmods`. -/
def detectOverSTGo (st : Store) : AList Str → List Str → List Str → List Str × Store
  | [], _, acc => (acc, st)
  | (m, ps) :: rest, mas, acc =>
    detectOverSTGo st rest mas
      (ps.foldl
        (fun a mat => mas.foldl (fun a ma => if globMatch mat ma then insertSet a m else a) a)
        acc)

/-- State-threaded `detect_acpi_kmods`. -/
def detect_acpi_kmodsST (s : Store) (modaliases : List Str) : List Str × Store :=
  detectOverSTGo s s.acpi modaliases []

/-- State-threaded `detect_pci_kmods`. -/
def detect_pci_kmodsST (s : Store) (modaliases : List Str) : List Str × Store :=
  detectOverSTGo s s.pci modaliases []

/-- State-threaded module loop of `detect_dmi_kmods`. -/
def dmiGoST (st : Store) (parts : List Str) :
    AList (List Str) → List Str → Except KErr (List Str) × Store
  | [], acc => (.ok acc, st)
  | (m, matchers) :: rest, acc =>
    match dmiScanMatchers parts matchers with
    | .error e => (.error e, st)
    | .ok true => dmiGoST st parts rest (insertSet acc m)
    | .ok false => dmiGoST st parts rest acc

/-- State-threaded `detect_dmi_kmods`. -/
def detect_dmi_kmodsST (s : Store) (dmi_str : Str) : Except KErr (List Str) × Store :=
  let parts := (splitAll ':' (strip (dropPref (str "dmi:") dmi_str))).filter (fun p => !p.isEmpty)
  dmiGoST s parts s.dmi []

/-- State-threaded `blkdevLevel`; the two alias resolutions go through
`resolve_module_aliasST` and their returned stores are threaded onward. -/
def blkdevLevelST (st : Store) (acc : List Str) (lv : DevLevel) : Except KErr (List Str) × Store :=
  let acc1 :=
    match lv.driver with
    | some d =>
      if st.builtin.contains d || BUILTIN_NO_KMOD.contains d then acc
      else
        match lv.driverModule with
        | some dm => insertSet acc dm
        | none => acc
    | none => acc
  match lv.modalias with
  | none => (.ok acc1, st)
  | some raw =>
    match resolve_module_aliasST st (strip raw) none with
    | (.ok m, st1) => (.ok (insertSet acc1 m), st1)
    | (.error e, st1) =>
      if isUnknownAliasErr e then
        match lv.driver with
        | some d =>
          if st1.builtin.contains d then (.ok acc1, st1)
          else if BUILTIN_NO_KMOD.contains d then (.ok acc1, st1)
          else
            match resolve_module_aliasST st1 d none with
            | (.ok m2, st2) => (.ok (insertSet acc1 m2), st2)
            | (.error e2, st2) =>
              (if isUnknownAliasErr e2 then .ok acc1 else .error e2, st2)
        | none => (.error .attributeError, st1)
      else (.error e, st1)

/-- State-threaded `blkdevGo`. -/
def blkdevGoST (st : Store) : List DevLevel → List Str → Except KErr (List Str) × Store
  | [], acc => (.ok acc, st)
  | lv :: rest, acc =>
    match blkdevLevelST st acc lv with
    | (.error e, st1) => (.error e, st1)
    | (.ok acc', st1) => blkdevGoST st1 rest acc'

/-- State-threaded `get_blkdev_kmods`. -/
def get_blkdev_kmodsST (s : Store) (dev : Option (List DevLevel)) :
    Except KErr (List Str) × Store :=
  match dev with
  | none => (.error .deviceNotFound, s)
  | some levels => blkdevGoST s levels []

theorem detectOverSTGo_store (st : Store) :
    ∀ (l : AList Str) (mas acc : List Str), (detectOverSTGo st l mas acc).2 = st := by
  intro l
  induction l with
  | nil => intro mas acc; rfl
  | cons e rest ih =>
    intro mas acc
    obtain ⟨m, ps⟩ := e
    rw [detectOverSTGo]
    exact ih mas _

theorem dmiGoST_store (st : Store) (parts : List Str) :
    ∀ (l : AList (List Str)) (acc : List Str), (dmiGoST st parts l acc).2 = st := by
  intro l
  induction l with
  | nil => intro acc; rfl
  | cons e rest ih =>
    intro acc
    obtain ⟨m, matchers⟩ := e
    rw [dmiGoST]
    cases dmiScanMatchers parts matchers with
    | error e => rfl
    | ok b => cases b <;> simp only <;> exact ih _

theorem blkdevLevelST_store (st : Store) (acc : List Str) (lv : DevLevel) :
    (blkdevLevelST st acc lv).2 = st := by
  unfold blkdevLevelST
  cases hma : lv.modalias with
  | none => rfl
  | some raw =>
    simp only
    have h1 := resolve_module_aliasST_store st (strip raw) none
    split
    next m st1 hm =>
      rw [hm] at h1
      simpa using h1
    next e st1 hm =>
      rw [hm] at h1
      simp at h1
      subst h1
      split
      · split
        next d heq =>
          split
          · rfl
          · split
            · rfl
            · have h2 := resolve_module_aliasST_store st1 d none
              split
              next m2 st2 hm2 => rw [hm2] at h2; simpa using h2
              next e2 st2 hm2 => rw [hm2] at h2; simpa using h2
        next => rfl
      · rfl

theorem blkdevGoST_store (st : Store) :
    ∀ (ls : List DevLevel) (acc : List Str), (blkdevGoST st ls acc).2 = st := by
  intro ls
  induction ls generalizing st with
  | nil => intro acc; rfl
  | cons lv rest ih =>
    intro acc
    rw [blkdevGoST]
    have h1 := blkdevLevelST_store st acc lv
    split
    next e st1 hm => rw [hm] at h1; simpa using h1
    next acc' st1 hm =>
      rw [hm] at h1
      simp at h1
      subst h1
      exact ih st1 _

/-! ## Helper lemmas about parsing an `alias <bus>:<rest> <module>` line -/

theorem ne_space_of_not_ws {c : Char} (h : isWS c = false) : c ≠ ' ' := by
  intro hc
  subst hc
  simp [isWS] at h

theorem startsWith_append (p x : Str) : startsWith p (p ++ x) = true := by
  unfold startsWith
  exact List.isPrefixOf_iff_prefix.mpr (List.prefix_append p x)

theorem dropPref_append (p x : Str) : dropPref p (p ++ x) = x := by
  unfold dropPref
  rw [if_pos (List.isPrefixOf_iff_prefix.mpr (List.prefix_append p x))]
  exact List.drop_left p x

theorem stripL_eq_self {xs : Str} (h : ∀ c, xs.head? = some c → isWS c = false) :
    stripL xs = xs := by
  cases xs with
  | nil => rfl
  | cons c t =>
    unfold stripL
    rw [List.dropWhile_cons, if_neg]
    simp [h c rfl]

theorem stripR_eq_self {xs : Str} (h : ∀ c, xs.getLast? = some c → isWS c = false) :
    stripR xs = xs := by
  unfold stripR
  have h' : ∀ c, xs.reverse.head? = some c → isWS c = false := by
    intro c hc
    rw [List.head?_reverse] at hc
    exact h c hc
  cases hrev : xs.reverse with
  | nil =>
    have : xs = [] := by simpa using congrArg List.reverse hrev
    simp [this]
  | cons c t =>
    rw [List.dropWhile_cons, if_neg]
    · rw [← hrev, List.reverse_reverse]
    · simp [h' c (by rw [hrev]; rfl)]

theorem strip_eq_self {xs : Str} (h1 : ∀ c, xs.head? = some c → isWS c = false)
    (h2 : ∀ c, xs.getLast? = some c → isWS c = false) : strip xs = xs := by
  unfold strip
  rw [stripL_eq_self h1, stripR_eq_self h2]

theorem splitFirst_append {c : Char} {xs : Str} (ys : Str) (h : ∀ d ∈ xs, d ≠ c) :
    splitFirst c (xs ++ c :: ys) = some (xs, ys) := by
  induction xs with
  | nil => simp [splitFirst]
  | cons d t ih =>
    rw [List.cons_append, splitFirst, if_neg (h d (by simp))]
    rw [ih (fun e he => h e (by simp [he]))]
    rfl

theorem mem_of_getLast?_eq {α : Type} {l : List α} {c : α} (h : l.getLast? = some c) :
    c ∈ l := by
  rw [← List.head?_reverse] at h
  rw [← List.mem_reverse]
  cases hrev : l.reverse with
  | nil => rw [hrev] at h; simp at h
  | cons a t =>
    rw [hrev] at h
    simp at h
    simp [h]

/-- The line `alias <bus>:<rest> <module>` as one string. -/
def mkLine (bus rest module : Str) : Str :=
  str "alias " ++ (bus ++ (':' :: (rest ++ (' ' :: module))))

/-- When the bus has no `:`/whitespace, the rest has no space, and the
module name is whitespace-free and nonempty, `process_alias` on
`alias <bus>:<rest> <module>` reduces to the bus dispatch. -/
theorem process_alias_busline (s : Store) {bus rest module : Str}
    (hbus1 : bus ≠ []) (hbus2 : ∀ c ∈ bus, isWS c = false ∧ c ≠ ':')
    (hrest : ∀ c ∈ rest, c ≠ ' ')
    (hmod1 : module ≠ []) (hmod2 : ∀ c ∈ module, isWS c = false) :
    process_alias s (mkLine bus rest module) = dispatchBus s bus rest module := by
  have hX1 : ∀ c, (bus ++ (':' :: (rest ++ (' ' :: module)))).head? = some c →
      isWS c = false := by
    intro c hc
    cases bus with
    | nil => exact absurd rfl hbus1
    | cons b t =>
      simp at hc
      exact hc ▸ (hbus2 b (by simp)).1
  have hX2 : ∀ c, (bus ++ (':' :: (rest ++ (' ' :: module)))).getLast? = some c →
      isWS c = false := by
    intro c hc
    have hm : (bus ++ (':' :: (rest ++ (' ' :: module)))).getLast? = module.getLast? := by
      rw [show bus ++ (':' :: (rest ++ (' ' :: module))) =
          (bus ++ ':' :: (rest ++ [' '])) ++ module by simp]
      exact List.getLast?_append_of_ne_nil _ hmod1
    rw [hm] at hc
    exact hmod2 c (mem_of_getLast?_eq hc)
  have e1 : dropPref (str "alias ") (str "alias " ++ (bus ++ (':' :: (rest ++ (' ' :: module))))) =
      bus ++ (':' :: (rest ++ (' ' :: module))) := dropPref_append _ _
  have e2 : strip (bus ++ (':' :: (rest ++ (' ' :: module)))) =
      bus ++ (':' :: (rest ++ (' ' :: module))) :=
    strip_eq_self hX1 hX2
  have hsp : splitFirst ' ' (bus ++ (':' :: (rest ++ (' ' :: module)))) =
      some (bus ++ ':' :: rest, module) := by
    rw [show bus ++ (':' :: (rest ++ (' ' :: module))) = (bus ++ ':' :: rest) ++ ' ' :: module by
      simp]
    apply splitFirst_append
    intro d hd
    rcases List.mem_append.mp hd with hd | hd
    · exact ne_space_of_not_ws (hbus2 d hd).1
    · rcases List.mem_cons.mp hd with hd | hd
      · subst hd; decide
      · exact hrest d hd
  have hco : splitFirst ':' (bus ++ ':' :: rest) = some (bus, rest) :=
    splitFirst_append rest (fun d hd => (hbus2 d hd).2)
  unfold process_alias mkLine
  simp only [e1, e2, hsp, hco]

/-- Lemma: `buildGo` over a concatenation runs the first part and, on success,
continues with the second from the reached store. -/
theorem buildGo_append (s : Store) (xs ys : List Str) :
    buildGo s (xs ++ ys) =
      match buildGo s xs with
      | .ok t => buildGo t ys
      | .error e => .error e := by
  induction xs generalizing s with
  | nil => simp [buildGo]
  | cons l t ih =>
    rw [List.cons_append, buildGo, buildGo]
    by_cases hl : startsWith (str "alias ") l = true
    · rw [if_pos hl, if_pos hl]
      cases process_alias s l with
      | error e => rfl
      | ok s' => exact ih s'
    · rw [if_neg hl, if_neg hl]
      exact ih s

/-- The dispatch of a `cpu` bus alias reaches `_process_cpu_alias`. -/
theorem dispatchBus_cpu (s : Store) (rest module : Str) :
    dispatchBus s (str "cpu") rest module = _process_cpu_alias s rest module := by
  unfold dispatchBus
  rw [if_neg (by decide), if_neg (by decide), if_neg (by decide), if_pos (by decide)]

/-! ## Claim theorems -/

/-- C4 (corrected): a CPU alias whose key:value decomposition is
malformed (odd token count or duplicate key — exactly the inputs on
which `get_alias_keys` raises `ValueError`) aborts the whole load: the
`ValueError` propagates uncaught through `_process_cpu_alias`,
`process_alias` and the load loop, so the store build fails instead of
skipping the single alias. -/
theorem C4_malformed_cpu_alias_aborts_load (s t : Store) (pre post : List Str)
    (rest module : Str)
    (hpre : buildGo s pre = .ok t)
    (hrest : ∀ c ∈ rest, c ≠ ' ')
    (hmod1 : module ≠ []) (hmod2 : ∀ c ∈ module, isWS c = false)
    (hbad : get_alias_keys rest = .error .valueError) :
    buildGo s (pre ++ mkLine (str "cpu") rest module :: post) = .error .valueError := by
  rw [buildGo_append, hpre]
  show buildGo t (mkLine (str "cpu") rest module :: post) = .error .valueError
  have hsw : startsWith (str "alias ") (mkLine (str "cpu") rest module) = true := by
    unfold mkLine
    exact startsWith_append _ _
  have hpa : process_alias t (mkLine (str "cpu") rest module) = .error .valueError := by
    rw [process_alias_busline t (by decide) (by decide) hrest hmod1 hmod2, dispatchBus_cpu]
    unfold _process_cpu_alias
    rw [hbad]
  rw [buildGo, if_pos hsw, hpa]

/-- C4 witness: a load whose only line is the odd-token CPU alias
`alias cpu:type:x:feature m` fails with `ValueError`. -/
theorem C4_malformed_cpu_alias_aborts_load_witness :
    buildGo initStore ([] ++ mkLine (str "cpu") (str "type:x:feature") (str "m") :: []) =
      .error .valueError :=
  C4_malformed_cpu_alias_aborts_load initStore initStore [] []
    (str "type:x:feature") (str "m") rfl (by decide) (by decide) (by decide) (by decide)

/-- C4 counterexample: with the duplicate-key CPU alias
`alias cpu:type:x:type:y m2` between two good lines, the load does not
complete (it raises `ValueError`), so it does not equal the load with
that line removed — refuting the claim as stated. -/
theorem C4_malformed_cpu_alias_aborts_load_cex :
    buildStore
        [str "alias usb:aaa m1", str "alias cpu:type:x:type:y m2", str "alias usb:bbb m3"] =
      .error .valueError ∧
    buildStore
        [str "alias usb:aaa m1", str "alias cpu:type:x:type:y m2", str "alias usb:bbb m3"] ≠
      buildStore [str "alias usb:aaa m1", str "alias usb:bbb m3"] := by
  refine ⟨by decide, by decide⟩

/-- C5 (amended): for `alias <bus>:<rest> <module>` with `<bus>` not an
ignored bus, when `<bus>` itself is in the plain-bus set the pattern is
stored under that bus's dedicated map (`busApp`); but when only the
star-stripped form of `<bus>` is in the plain-bus set, the pattern goes
to the generic alias list instead (because `process_simple_alias`
re-tests the unstripped bus against `plain_busses`). -/
theorem C5_plain_bus_dispatch (s : Store) (bus rest module : Str)
    (hbus1 : bus ≠ []) (hbus2 : ∀ c ∈ bus, isWS c = false ∧ c ≠ ':')
    (hrest : ∀ c ∈ rest, c ≠ ' ')
    (hmod1 : module ≠ []) (hmod2 : ∀ c ∈ module, isWS c = false)
    (hig1 : bus ∉ ignoredBusses) (hig2 : stripStars bus ∉ ignoredBusses) :
    (bus ∈ plainBusses →
      process_alias s (mkLine bus rest module) = .ok (busApp s bus module rest)) ∧
    (bus ∉ plainBusses → stripStars bus ∈ plainBusses →
      process_alias s (mkLine bus rest module) =
        .ok { s with aliases := dictAppend s.aliases module rest }) := by
  have hpa := process_alias_busline s hbus1 hbus2 hrest hmod1 hmod2
  have hne : bus.isEmpty = false := by
    cases bus with
    | nil => exact absurd rfl hbus1
    | cons c t => rfl
  constructor
  · intro hp
    rw [hpa]
    unfold dispatchBus
    rw [if_neg (by simp [hig1, hig2]), if_pos (by simp [hp])]
    unfold process_simple_alias
    simp only
    rw [if_pos (by simp [hne, hp])]
  · intro hp hps
    rw [hpa]
    unfold dispatchBus
    rw [if_neg (by simp [hig1, hig2]), if_pos (by simp [hps])]
    unfold process_simple_alias
    simp only
    rw [if_neg (by simp [hp])]

/-- C5 witness: `alias usb:foo m` lands in the dedicated usb map, while
`alias usb*:foo m` (plain only after star-stripping) lands in the
generic alias list. -/
theorem C5_plain_bus_dispatch_witness :
    process_alias initStore (mkLine (str "usb") (str "foo") (str "m")) =
      .ok (busApp initStore (str "usb") (str "m") (str "foo")) ∧
    process_alias initStore (mkLine (str "usb*") (str "foo") (str "m")) =
      .ok { initStore with aliases := dictAppend initStore.aliases (str "m") (str "foo") } :=
  ⟨(C5_plain_bus_dispatch initStore (str "usb") (str "foo") (str "m") (by decide) (by decide)
      (by decide) (by decide) (by decide) (by decide) (by decide)).1 (by decide),
   (C5_plain_bus_dispatch initStore (str "usb*") (str "foo") (str "m") (by decide) (by decide)
      (by decide) (by decide) (by decide) (by decide) (by decide)).2 (by decide) (by decide)⟩

/-- C5 counterexample: after processing `alias usb*:foo m` — whose bus
with its `*` stripped is the plain bus `usb` — the usb map is empty and
the pattern sits in the generic alias list, refuting the claim that it
is stored under the bus's dedicated list. -/
theorem C5_plain_bus_dispatch_cex :
    (buildStore [str "alias usb*:foo m"]).map (fun st => (st.usb, st.aliases)) =
      .ok ([], [(str "m", [str "foo"])]) := by
  decide

/-- C6 (amended): for a CPU alias line `alias cpu:<rest> <module>` whose
keys parse with fields `type` and `feature`: when both are `*` the
parser appends `<rest>` — the spec *without* its `cpu:` head, carrying
no bus tag — to the generic alias list (not the full original spec);
when `type` is `*` (and `feature` is not) it stores
`Cpu{arch="*", info="*", features}`; when `type` contains a comma it
stores `Cpu{arch, info}` split at the first comma; and when `type` is
neither `*` nor comma-containing, the unpacking raises `ValueError`. -/
theorem C6_cpu_record_shapes (s : Store) (rest module ty feat : Str)
    (kv kv1 kv2 : List (Str × Str))
    (hrest : ∀ c ∈ rest, c ≠ ' ')
    (hmod1 : module ≠ []) (hmod2 : ∀ c ∈ module, isWS c = false)
    (hkeys : get_alias_keys rest = .ok kv)
    (hty : popKey kv (str "type") = some (ty, kv1))
    (hfe : popKey kv1 (str "feature") = some (feat, kv2)) :
    process_alias s (mkLine (str "cpu") rest module) =
      if ty = str "*" then
        if feat = str "*" then .ok { s with aliases := dictAppend s.aliases module rest }
        else .ok { s with cpu := dictAppend s.cpu module ⟨str "*", str "*", feat⟩ }
      else
        match splitFirst ',' ty with
        | none => .error .valueError
        | some (arch, info) => .ok { s with cpu := dictAppend s.cpu module ⟨arch, info, feat⟩ } := by
  rw [process_alias_busline s (by decide) (by decide) hrest hmod1 hmod2, dispatchBus_cpu]
  unfold _process_cpu_alias
  rw [hkeys]
  simp only [hty, hfe]

/-- C6 witness: the fully-wildcard alias `alias cpu:type:*:feature:* m`
stores the pattern `type:*:feature:*` (the rest, not the full spec) in
the generic list. -/
theorem C6_cpu_record_shapes_witness :
    process_alias initStore (mkLine (str "cpu") (str "type:*:feature:*") (str "m")) =
      .ok { initStore with aliases := [(str "m", [str "type:*:feature:*"])] } := by
  have h := C6_cpu_record_shapes initStore (str "type:*:feature:*") (str "m") (str "*") (str "*")
    [(str "type", str "*"), (str "feature", str "*")] [(str "feature", str "*")] []
    (by decide) (by decide) (by decide) (by decide) (by decide) (by decide)
  rw [h]
  decide

/-- C6 counterexample: processing `alias cpu:type:*:feature:* m` stores
the pattern `type:*:feature:*`, which is not the full original spec
`cpu:type:*:feature:*`, and the generic list entry carries no bus tag —
refuting the claim that the full original spec is stored. -/
theorem C6_cpu_record_shapes_cex :
    (buildStore [str "alias cpu:type:*:feature:* m"]).map (fun st => st.aliases) =
      .ok [(str "m", [str "type:*:feature:*"])] ∧
    str "type:*:feature:*" ≠ str "cpu:type:*:feature:*" := by
  refine ⟨by decide, by decide⟩

/-- The Open-Firmware matching rule in the spec's wording: for a query
(with its optional `of:` head already stripped), a stored pattern hits
when it glob-matches the query directly, or — with a comma-free query
and a comma-carrying pattern — when the pattern's suffix after its last
comma glob-matches the query. -/
def ofSpecHit (q p : Str) : Bool :=
  globMatch p q ||
    (!(q.contains ',') && p.contains ',' &&
      globMatch ((splitAll ',' p).getLastD []) q)

/-- Function `resolveOpenFirmware` in the spec's wording: strip the optional
`of:` head, then take the first (module, pattern) pair of the flattened
Of map whose pattern hits; its module wins, otherwise AliasNotFound. -/
def ofResolveSpec (s : Store) (al : Str) : Except KErr Str :=
  let q := strip (dropPref (str "of:") al)
  match (s.of.flatMap (fun e => e.2.map (fun p => (e.1, p)))).find?
      (fun mp => ofSpecHit q mp.2) with
  | some mp => .ok mp.1
  | none => .error (.ofUnknownAlias q)

theorem ofScan_eq_specFind :
    ∀ (l : AList Str) (q : Str),
      ofScan l q =
        ((l.flatMap (fun e => e.2.map (fun p => (e.1, p)))).find?
          (fun mp => ofSpecHit q mp.2)).map Prod.fst := by
  intro l
  induction l with
  | nil => intro q; rfl
  | cons e rest ih =>
    intro q
    obtain ⟨m, ps⟩ := e
    rw [ofScan, List.flatMap_cons, List.find?_append, List.find?_map]
    have hcomp : ((fun mp => ofSpecHit q (Prod.snd mp)) ∘ fun p => (m, p)) =
        fun p => ofMatcherHit q p := rfl
    rw [hcomp]
    by_cases hany : ps.any (fun p => ofMatcherHit q p) = true
    · rw [if_pos hany]
      have hsome : (ps.find? (fun p => ofMatcherHit q p)).isSome = true := by
        rw [List.find?_isSome]
        exact List.any_eq_true.mp hany
      cases hf : ps.find? (fun p => ofMatcherHit q p) with
      | none => rw [hf] at hsome; simp at hsome
      | some p0 => rfl
    · rw [if_neg hany]
      have hnone : ps.find? (fun p => ofMatcherHit q p) = none := by
        rw [List.find?_eq_none]
        intro x hx
        exact fun hpx => hany (List.any_eq_true.mpr ⟨x, hx, hpx⟩)
      rw [hnone, ih q]
      rfl

/-- C7 (amended): `resolve_of_alias` implements exactly the spec's rule —
strip an optional `of:` head; the first (module, pattern) pair whose
pattern either directly glob-matches the query, or (comma-free query,
comma-carrying pattern) whose suffix after the last comma matches, wins;
otherwise AliasNotFound.  In particular the *comma-free* query `model`
matches the stored pattern `vendor,model` through the suffix rule —
unlike the claim's example query `boardrev,1`, which contains a comma
and is therefore never eligible for the suffix comparison. -/
theorem C7_of_suffix_rule :
    (∀ (s : Store) (al : Str), resolve_of_alias s al = ofResolveSpec s al) ∧
    (buildStore [str "alias of:N*T*Cvendor,model m"]).map
        (fun st => resolve_of_alias st (str "model")) = .ok (.ok (str "m")) := by
  constructor
  · intro s al
    unfold resolve_of_alias ofResolveSpec
    simp only [ofScan_eq_specFind]
    cases (s.of.flatMap (fun e => e.2.map (fun p => (e.1, p)))).find?
        (fun mp => ofSpecHit (strip (dropPref (str "of:") al)) mp.2) with
    | none => rfl
    | some mp => rfl
  · decide

/-- C7 counterexample: with the stored Open-Firmware pattern
`vendor,model`, the claim's example query `boardrev,1` — which contains
a comma — is not matched by the suffix rule: `resolve_of_alias` raises
AliasNotFound instead of returning the module. -/
theorem C7_of_suffix_rule_cex :
    (buildStore [str "alias of:N*T*Cvendor,model m"]).map
        (fun st => (st.of, resolve_of_alias st (str "boardrev,1"))) =
      .ok ([(str "m", [str "vendor,model"])],
        .error (.ofUnknownAlias (str "boardrev,1"))) := by
  decide

/-- Tokenizing a pattern without glob metacharacters yields only
literal tokens. -/
theorem tokizeN_no_meta :
    ∀ (n : Nat) (p : Str), p.length ≤ n →
      (∀ c ∈ p, c ≠ '*' ∧ c ≠ '?' ∧ c ≠ '[') → tokizeN n p = p.map GlobTok.lit := by
  intro n
  induction n with
  | zero =>
    intro p hlen _
    have : p = [] := List.length_eq_zero.mp (Nat.le_zero.mp hlen)
    subst this
    rfl
  | succ n ih =>
    intro p hlen hm
    cases p with
    | nil => rfl
    | cons c t =>
      obtain ⟨h1, h2, h3⟩ := hm c (by simp)
      rw [tokizeN, if_neg (by simp [h1]), if_neg (by simp [h2]), if_neg (by simp [h3])]
      rw [List.map_cons]
      congr 1
      exact ih t (by simpa using Nat.le_of_succ_le_succ hlen)
        (fun d hd => hm d (by simp [hd]))

/-- A string of literal tokens matches itself. -/
theorem tokMatch_lits_self : ∀ p : Str, tokMatch (p.map GlobTok.lit) p = true := by
  intro p
  induction p with
  | nil => rfl
  | cons c t ih =>
    rw [List.map_cons, tokMatch]
    simp [ih]

/-- A pattern without glob metacharacters glob-matches itself. -/
theorem globMatch_self {p : Str} (h : ∀ c ∈ p, c ≠ '*' ∧ c ≠ '?' ∧ c ≠ '[') :
    globMatch p p = true := by
  unfold globMatch globTokens
  rw [tokizeN_no_meta (p.length + 1) p (by omega) h]
  exact tokMatch_lits_self p

/-- The generic scan skips entries none of whose patterns match. -/
theorem scanAList_append_skip {pre : AList Str} {l : AList Str} {p : Str}
    (h : ∀ e ∈ pre, ∀ q ∈ e.2, globMatch q p = false) :
    scanAList (pre ++ l) p = scanAList l p := by
  induction pre with
  | nil => rfl
  | cons e t ih =>
    obtain ⟨m', ps'⟩ := e
    rw [List.cons_append, scanAList, if_neg]
    · exact ih (fun e he => h e (by simp [he]))
    · simp only [List.any_eq_true, not_exists]
      intro q hq
      have hf := h (m', ps') (by simp) q hq.1
      rw [hf] at hq
      simp at hq

/-- C8 (amended): a glob-metacharacter-free pattern stored in the
*generic* alias list, whose query form carries no plain-bus `bus:` head,
resolves — when no earlier generic entry has a pattern matching it — to
the module under which it is stored.  (The original claim fails for
patterns stored in the per-bus maps, and for patterns shadowed by an
earlier matching entry; the counterexample shows the former.) -/
theorem C8_fixed_point (s : Store) (pre post : AList Str) (m p : Str) (ps : List Str)
    (hs : s.aliases = pre ++ (m, ps) :: post)
    (hp : p ∈ ps)
    (hmeta : ∀ c ∈ p, c ≠ '*' ∧ c ≠ '?' ∧ c ≠ '[')
    (hnopref : findBusPref plainBusses p = none)
    (hpre : ∀ e ∈ pre, ∀ q ∈ e.2, globMatch q p = false) :
    resolve_module_alias s p none = .ok m := by
  have hany : ps.any (fun q => globMatch q p) = true :=
    List.any_eq_true.mpr ⟨p, hp, globMatch_self hmeta⟩
  have hscan : scanAList s.aliases p = some m := by
    rw [hs, scanAList_append_skip hpre, scanAList, if_pos hany]
  have hpre' : resolvePre p none = (none, p) := by
    unfold resolvePre
    rw [hnopref]
  have hstage : resolveStages s p none = .done (.ok m) := by
    unfold resolveStages
    simp only [hpre']
    rw [hscan]
  rw [resolve_module_alias.eq_def]
  split
  next r hmatch =>
    rw [hstage] at hmatch
    injection hmatch with hr
    exact hr.symm
  next al hmatch =>
    rw [hstage] at hmatch
    cases hmatch

/-- C8 witness: the metacharacter-free generic pattern `v1234`, stored
under module `m`, queried verbatim, resolves to `m`. -/
theorem C8_fixed_point_witness :
    resolve_module_alias { initStore with aliases := [(str "m", [str "v1234"])] }
      (str "v1234") none = .ok (str "m") :=
  C8_fixed_point { initStore with aliases := [(str "m", [str "v1234"])] } [] []
    (str "m") (str "v1234") [str "v1234"] rfl (by decide) (by decide) (by decide)
    (by simp)

/-- C8 counterexample: the metacharacter-free pattern `v1234` of
`alias usb:v1234 m` is stored (in the usb map), yet querying it verbatim
does not return `m` — it raises, because the bare query reaches the
Open-Firmware stage and its error propagates.  This refutes the claim
for bus-partitioned patterns. -/
theorem C8_fixed_point_cex :
    (buildStore [str "alias usb:v1234 m"]).map
        (fun st => (st.usb, resolve_module_alias st (str "v1234") none)) =
      .ok ([(str "m", [str "v1234"])], .error (.ofUnknownAlias (str "v1234"))) := by
  have hb : buildStore [str "alias usb:v1234 m"] =
      .ok { initStore with usb := [(str "m", [str "v1234"])] } := by decide
  rw [hb]
  have hr : resolve_module_alias { initStore with usb := [(str "m", [str "v1234"])] }
      (str "v1234") none = .error (.ofUnknownAlias (str "v1234")) := by
    rw [resolve_module_alias.eq_def]
    decide
  simp [Except.map, hr]

/-- C9: every query operation — `resolve_module_alias`,
`resolve_of_alias`, `resolve_pci_alias`, `detect_acpi_kmods`,
`detect_pci_kmods`, `detect_dmi_kmods` and `get_blkdev_kmods` — leaves
the store (the generic alias map, every per-bus map, the cpu/dmi/of/
virtio maps and the builtin set) unchanged, whether it succeeds or
fails: each state-threaded embedding returns exactly the store it was
given. -/
theorem C9_queries_leave_store_unchanged :
    ∀ (s : Store) (a : Str) (b : Option Str) (mas : List Str) (d : Str)
      (dev : Option (List DevLevel)),
      (resolve_module_aliasST s a b).2 = s ∧
      (resolve_of_aliasST s a).2 = s ∧
      (resolve_pci_aliasST s a).2 = s ∧
      (detect_acpi_kmodsST s mas).2 = s ∧
      (detect_pci_kmodsST s mas).2 = s ∧
      (detect_dmi_kmodsST s d).2 = s ∧
      (get_blkdev_kmodsST s dev).2 = s := by
  intro s a b mas d dev
  refine ⟨resolve_module_aliasST_store s a b, ?_, ?_, ?_, ?_, ?_, ?_⟩
  · rw [resolve_of_aliasST_eq]
  · rw [resolve_pci_aliasST_eq]
  · exact detectOverSTGo_store s s.acpi mas []
  · exact detectOverSTGo_store s s.pci mas []
  · exact dmiGoST_store s _ s.dmi []
  · cases dev with
    | none => rfl
    | some levels => exact blkdevGoST_store s levels []

/-- C10: an alias line with bus `virtio` whose payload lacks the
`d<hex>v` shape (here `alias virtio:x somemodule`) makes `re.search`
return `None` and `match.group` raise `AttributeError`, which is not
caught anywhere in the load loop: processing the line raises instead of
storing or skipping, and a single such line aborts the entire load
pass even when surrounded by well-formed lines. -/
theorem C10_virtio_malformed_aborts_load :
    buildStore [str "alias virtio:x somemodule"] = .error .attributeError ∧
    buildStore
        [str "alias usb:aaa m1", str "alias virtio:x somemodule", str "alias usb:bbb m2"] =
      .error .attributeError := by
  constructor
  · decide
  · decide

/-- C1 (code bug): on a store holding only the platform alias `mydev`
for module `mymod`, `resolve_module_alias("mydev")` raises the
Open-Firmware `UnknownAliasError` from `resolve_of_alias` instead of
retrying with the `platform` bus hint: `resolve_of_alias` raises rather
than returning a falsy value, so the platform fallback of the source
(lines 181–183) and the final raise (line 185) are unreachable.  The
second conjunct shows the exact retry the dead fallback would have made
does succeed, so the fallback would have resolved the alias to `mymod`
as the spec describes. -/
theorem C1_of_error_preempts_platform_fallback :
    (buildStore [str "alias platform:mydev mymod"]).map
        (fun st => resolve_module_alias st (str "mydev") none) =
      .ok (.error (.ofUnknownAlias (str "mydev"))) ∧
    (buildStore [str "alias platform:mydev mymod"]).map
        (fun st => resolve_module_alias st (str "mydev") (some (str "platform"))) =
      .ok (.ok (str "mymod")) := by
  have hb : buildStore [str "alias platform:mydev mymod"] =
      .ok { initStore with platform := [(str "mymod", [str "mydev"])] } := by decide
  constructor
  · rw [hb]
    have hr : resolve_module_alias
        { initStore with platform := [(str "mymod", [str "mydev"])] } (str "mydev") none =
        .error (.ofUnknownAlias (str "mydev")) := by
      rw [resolve_module_alias.eq_def]
      decide
    simp [Except.map, hr]
  · rw [hb]
    have hr : resolve_module_alias
        { initStore with platform := [(str "mymod", [str "mydev"])] } (str "mydev")
        (some (str "platform")) = .ok (str "mymod") := by
      rw [resolve_module_alias.eq_def]
      decide
    simp [Except.map, hr]

/-- C2 (code bug): on a store holding the DMI matcher `["a","b"]`,
`detect_dmi_kmods` with target fields `["a"]` raises `IndexError`
(`dmi_parts[1]` with a non-`"*"` pattern at the missing position)
instead of failing the record and returning a set.  The wildcard-guarded
part of the claim does hold: matcher `["bvnAcme","*","pvr1"]` fails
gracefully against `["bvnAcme"]` and matches `["bvnAcme","X","pvr1"]`. -/
theorem C2_dmi_short_target_index_error :
    (buildStore [str "alias dmi:a:b m"]).map
        (fun st => detect_dmi_kmods st (str "a")) = .ok (.error .indexError) ∧
    (buildStore [str "alias dmi:bvnAcme:*:pvr1 m"]).map
        (fun st => detect_dmi_kmods st (str "bvnAcme")) = .ok (.ok []) ∧
    (buildStore [str "alias dmi:bvnAcme:*:pvr1 m"]).map
        (fun st => detect_dmi_kmods st (str "bvnAcme:X:pvr1")) = .ok (.ok [str "m"]) := by
  refine ⟨by decide, by decide, by decide⟩

/-- C3 (code bug): at an ancestor level that has a `modalias` file whose
text does not resolve and no `driver` symlink, `get_blkdev_kmods` raises
`AttributeError` (the secondary probe calls
`resolve_module_alias(None)`) instead of continuing; the device-missing
case does raise only `DeviceNotFound` as claimed. -/
theorem C3_blkdev_unresolved_modalias_without_driver_raises :
    get_blkdev_kmods initStore (some [⟨none, none, some (str "zzz")⟩]) =
      .error .attributeError ∧
    get_blkdev_kmods initStore none = .error .deviceNotFound := by
  constructor
  · have hr : resolve_module_alias initStore (strip (str "zzz")) none =
        .error (.ofUnknownAlias (str "zzz")) := by
      rw [resolve_module_alias.eq_def]
      decide
    simp [get_blkdev_kmods, blkdevGo, blkdevLevel, hr, isUnknownAliasErr]
  · rfl

end KmodDb
